import Mathlib

/-!
Verification of the `viater` directional-statistics accumulator
(`src/lib.rs`, `DirectionMeasurements`): circular mean via the
vector-sum/atan2 method and circular standard deviation via the
Yamartino approximation.

Embedding of `f64`: a value is `some x` for a finite real `x`, and
`none` for the NaN sentinel.  Infinities, signed zeros and rounding are
not distinguished from exact real arithmetic; NaN production and
propagation (the behaviour the spec's error-handling section is about)
is modelled faithfully: every arithmetic operation propagates `none`,
`sqrt` of a negative argument and `asin` outside `[-1, 1]` produce
`none`, and an ordered comparison against a `none` operand is false.
-/

open Real

/-- Model of an `f64` value: `some x` is the finite value `x`, `none` is NaN. -/
abbrev F64 := Option ℝ

/-- Addition on `f64` values; NaN propagates. -/
def fadd : F64 → F64 → F64
  | some x, some y => some (x + y)
  | _, _ => none

/-- Subtraction on `f64` values; NaN propagates. -/
def fsub : F64 → F64 → F64
  | some x, some y => some (x - y)
  | _, _ => none

/-- Multiplication on `f64` values; NaN propagates. -/
def fmul : F64 → F64 → F64
  | some x, some y => some (x * y)
  | _, _ => none

/-- Division on `f64` values; NaN propagates.  A zero divisor yields the
non-finite sentinel; in the source the only divisions are by
`self.count as f64` behind a `count == 0` early return, so that branch
is never reached. -/
noncomputable def fdiv : F64 → F64 → F64
  | some x, some y => if y = 0 then none else some (x / y)
  | _, _ => none

/-- Integer power `powi` on `f64` values; NaN propagates. -/
def fpow (a : F64) (n : ℕ) : F64 := a.map (fun x => x ^ n)

/-- Sine on `f64` values; NaN propagates. -/
noncomputable def fsin : F64 → F64 := Option.map Real.sin

/-- Cosine on `f64` values; NaN propagates. -/
noncomputable def fcos : F64 → F64 := Option.map Real.cos

/-- Square root on `f64` values: NaN on a negative argument, NaN propagates. -/
noncomputable def fsqrt : F64 → F64
  | some x => if x < 0 then none else some (Real.sqrt x)
  | none => none

/-- Arcsine on `f64` values: NaN outside `[-1, 1]`, NaN propagates. -/
noncomputable def fasin : F64 → F64
  | some x => if x < -1 ∨ 1 < x then none else some (Real.arcsin x)
  | none => none

/-- Real two-argument arctangent: the angle of the point `(x, y)`,
in `(-pi, pi]`, with `atan2 0 0 = 0` as in IEEE `atan2(+0, +0)`. -/
noncomputable def atan2 (y x : ℝ) : ℝ := Complex.arg ⟨x, y⟩

/-- `f64::atan2`; NaN propagates. -/
noncomputable def fatan2 : F64 → F64 → F64
  | some y, some x => some (atan2 y x)
  | _, _ => none

/-- Real degrees-to-radians conversion, `self * (PI / 180.0)`. -/
noncomputable def toRadiansR (d : ℝ) : ℝ := d * (Real.pi / 180)

/-- `f64::to_radians`; NaN propagates. -/
noncomputable def to_radians : F64 → F64 := Option.map toRadiansR

/-- Real radians-to-degrees conversion, `self * (180.0 / PI)`. -/
noncomputable def toDegreesR (r : ℝ) : ℝ := r * (180 / Real.pi)

/-- `f64::to_degrees`; NaN propagates. -/
noncomputable def to_degrees : F64 → F64 := Option.map toDegreesR

/-- The accumulator (`struct DirectionMeasurements`).  The source declares
`count` as `u64`; it is modelled as `Nat` (overflow after `2 ^ 64`
increments is not modelled). -/
structure DirectionMeasurements where
  count : ℕ
  sum_sin_rad : F64
  sum_cos_rad : F64

/-- `DirectionMeasurements::new`: empty accumulator, all fields zero. -/
def DirectionMeasurements.new : DirectionMeasurements :=
  { count := 0, sum_sin_rad := some 0, sum_cos_rad := some 0 }

/-- `DirectionMeasurements::add_measurement`: increments `count`, adds the
sine and cosine of the input converted to radians to the running sums. -/
noncomputable def DirectionMeasurements.add_measurement
    (m : DirectionMeasurements) (angle_degrees : F64) : DirectionMeasurements :=
  { count := m.count + 1
    sum_sin_rad := fadd m.sum_sin_rad (fsin (to_radians angle_degrees))
    sum_cos_rad := fadd m.sum_cos_rad (fcos (to_radians angle_degrees)) }

/-- Body of the loop in `DirectionMeasurements::from_values`: one
`add_measurement` per element, in order. -/
noncomputable def fromValuesLoop
    (m : DirectionMeasurements) : List F64 → DirectionMeasurements
  | [] => m
  | v :: rest => fromValuesLoop (m.add_measurement v) rest

/-- `DirectionMeasurements::from_values`: starts from `new` and runs the
loop over the given values. -/
noncomputable def DirectionMeasurements.from_values
    (values : List F64) : DirectionMeasurements :=
  fromValuesLoop DirectionMeasurements.new values

/-- The part of `DirectionMeasurements::average_direction` after the
`count == 0` early return: `to_degrees(atan2(sum_sin / count, sum_cos / count))`,
with `360` added when the comparison `< 0.0` holds (false for NaN, which
is therefore returned unchanged). -/
noncomputable def DirectionMeasurements.average_direction_body
    (m : DirectionMeasurements) : F64 :=
  let avg_sin_rad := fdiv m.sum_sin_rad (some (m.count : ℝ))
  let avg_cos_rad := fdiv m.sum_cos_rad (some (m.count : ℝ))
  let arctan := fatan2 avg_sin_rad avg_cos_rad
  let arctan_degrees := to_degrees arctan
  match arctan_degrees with
  | none => none
  | some d => if d < 0 then some (d + 360) else some d

/-- `DirectionMeasurements::average_direction`: NaN when `count == 0`,
otherwise the normalized degree value of the mean resultant vector. -/
noncomputable def DirectionMeasurements.average_direction
    (m : DirectionMeasurements) : F64 :=
  if m.count = 0 then none else m.average_direction_body

/-- The part of `DirectionMeasurements::standard_deviation` after the
`count == 0` early return: the Yamartino approximation
`to_degrees(asin(eps) * (1 + b * eps^3))` with
`eps = sqrt(1 - ((sum_sin/count)^2 + (sum_cos/count)^2))` and
`b = 2/sqrt(3) - 1`. -/
noncomputable def DirectionMeasurements.standard_deviation_body
    (m : DirectionMeasurements) : F64 :=
  let avg_sin_rad := fdiv m.sum_sin_rad (some (m.count : ℝ))
  let avg_cos_rad := fdiv m.sum_cos_rad (some (m.count : ℝ))
  let epsilon := fsqrt (fsub (some 1) (fadd (fpow avg_sin_rad 2) (fpow avg_cos_rad 2)))
  let arcsin := fasin epsilon
  let b : ℝ := 2 / Real.sqrt 3 - 1
  let sigma := fmul arcsin (fadd (some 1) (fmul (some b) (fpow epsilon 3)))
  to_degrees sigma

/-- `DirectionMeasurements::standard_deviation`: NaN when `count == 0`,
otherwise the Yamartino approximation. -/
noncomputable def DirectionMeasurements.standard_deviation
    (m : DirectionMeasurements) : F64 :=
  if m.count = 0 then none else m.standard_deviation_body

/-- `impl Default for DirectionMeasurements`: delegates to `new`. -/
def DirectionMeasurements.default : DirectionMeasurements :=
  DirectionMeasurements.new

/-! Helper lemmas shared across claims. -/

theorem fromValuesLoop_eq_foldl (vs : List F64) (m : DirectionMeasurements) :
    fromValuesLoop m vs = vs.foldl DirectionMeasurements.add_measurement m := by
  induction vs generalizing m with
  | nil => rfl
  | cons v rest ih => simp [fromValuesLoop, List.foldl, ih]

theorem fromValuesLoop_count (vs : List F64) (m : DirectionMeasurements) :
    (fromValuesLoop m vs).count = m.count + vs.length := by
  induction vs generalizing m with
  | nil => rfl
  | cons v rest ih =>
      simp [fromValuesLoop, ih, DirectionMeasurements.add_measurement]
      omega

/-! The claims. -/

/-- C1: with `count == 0` (as produced by `new()` or `from_values` on an
empty sequence) both `average_direction()` and `standard_deviation()`
return the NaN sentinel; with `count > 0` neither query takes the
sentinel branch, each returns its non-sentinel computation. -/
theorem C1_empty_nan_sentinel (m : DirectionMeasurements) :
    (m.count = 0 →
      m.average_direction = none ∧ m.standard_deviation = none) ∧
    (m.count ≠ 0 →
      m.average_direction = m.average_direction_body ∧
      m.standard_deviation = m.standard_deviation_body) := by
  constructor <;> intro h <;>
    simp [DirectionMeasurements.average_direction,
      DirectionMeasurements.standard_deviation, h]

/-- Closed instance of C1: both queries on `new` (count `0`) return the
NaN sentinel, and on a one-measurement state the sentinel branch is not
taken. -/
theorem C1_empty_nan_sentinel_witness :
    (DirectionMeasurements.new.average_direction = none ∧
      DirectionMeasurements.new.standard_deviation = none) ∧
    (DirectionMeasurements.mk 1 (some 0) (some 1)).average_direction =
      (DirectionMeasurements.mk 1 (some 0) (some 1)).average_direction_body :=
  ⟨(C1_empty_nan_sentinel DirectionMeasurements.new).1 rfl,
   ((C1_empty_nan_sentinel ⟨1, some 0, some 1⟩).2 (by decide)).1⟩

/-- C2: for every state and every input, `add_measurement` produces
exactly the state with `count + 1` and with the sine and cosine of the
radian-converted input added to the running sums; no range restriction
on the input, no return value beyond the updated state. -/
theorem C2_add_measurement_effect
    (m : DirectionMeasurements) (angle_degrees : F64) :
    m.add_measurement angle_degrees =
      { count := m.count + 1
        sum_sin_rad := fadd m.sum_sin_rad (fsin (to_radians angle_degrees))
        sum_cos_rad := fadd m.sum_cos_rad (fcos (to_radians angle_degrees)) } :=
  rfl

/-- C7: `from_values` over any finite ordered sequence equals, field for
field, constructing with `new` and folding `add_measurement` over the
sequence in the given order. -/
theorem C7_from_values_foldl (values : List F64) :
    DirectionMeasurements.from_values values =
      values.foldl DirectionMeasurements.add_measurement
        DirectionMeasurements.new := by
  simpa [DirectionMeasurements.from_values] using
    fromValuesLoop_eq_foldl values DirectionMeasurements.new

/-- C10: `Default::default()` is field-for-field the accumulator produced
by `new()` (`count = 0`, zero sums), and both queries on it return the
empty-accumulator NaN sentinel. -/
theorem C10_default_eq_new :
    DirectionMeasurements.default = DirectionMeasurements.new ∧
    DirectionMeasurements.default.count = 0 ∧
    DirectionMeasurements.default.sum_sin_rad = some 0 ∧
    DirectionMeasurements.default.sum_cos_rad = some 0 ∧
    DirectionMeasurements.default.average_direction = none ∧
    DirectionMeasurements.default.standard_deviation = none := by
  refine ⟨rfl, rfl, rfl, rfl, ?_, ?_⟩ <;>
    simp [DirectionMeasurements.default, DirectionMeasurements.new,
      DirectionMeasurements.average_direction,
      DirectionMeasurements.standard_deviation]

/-- Normalization applied by `average_direction` to the degree value:
`360` is added exactly when the value is negative; the NaN sentinel is
not negative, so it passes through unchanged. -/
noncomputable def normalize_degrees : F64 → F64
  | none => none
  | some d => if d < 0 then some (d + 360) else some d

/-- C3: with `count > 0`, `average_direction()` returns
`to_degrees(atan2(sum_sin / count, sum_cos / count))` with `360` added
exactly when that degree value is negative, and the accumulator itself
is untouched (the query is a pure function of the state). -/
theorem C3_average_direction_formula
    (m : DirectionMeasurements) (h : m.count ≠ 0) :
    m.average_direction =
      normalize_degrees (to_degrees (fatan2
        (fdiv m.sum_sin_rad (some (m.count : ℝ)))
        (fdiv m.sum_cos_rad (some (m.count : ℝ))))) := by
  rw [DirectionMeasurements.average_direction, if_neg h]
  rw [DirectionMeasurements.average_direction_body]
  cases to_degrees (fatan2
      (fdiv m.sum_sin_rad (some (m.count : ℝ)))
      (fdiv m.sum_cos_rad (some (m.count : ℝ)))) with
  | none => rfl
  | some d => rfl

/-- Closed instance of C3 at the one-measurement state with unit cosine
sum. -/
theorem C3_average_direction_formula_witness :
    (DirectionMeasurements.mk 1 (some 0) (some 1)).average_direction =
      normalize_degrees (to_degrees (fatan2
        (fdiv (some 0) (some ((1 : ℕ) : ℝ)))
        (fdiv (some 1) (some ((1 : ℕ) : ℝ))))) :=
  C3_average_direction_formula ⟨1, some 0, some 1⟩ (by decide)

/-- C5: with `count > 0`, `standard_deviation()` returns
`to_degrees(asin(eps) * (1 + b * eps^3))` with
`eps = sqrt(1 - ((sum_sin/count)^2 + (sum_cos/count)^2))` and
`b = 2/sqrt(3) - 1`; and when the radicand is negative it is not
clamped: `sqrt` yields the NaN sentinel, which propagates to the
result. -/
theorem C5_standard_deviation_yamartino
    (m : DirectionMeasurements) (h : m.count ≠ 0) :
    (m.standard_deviation =
      to_degrees (fmul
        (fasin (fsqrt (fsub (some 1) (fadd
          (fpow (fdiv m.sum_sin_rad (some (m.count : ℝ))) 2)
          (fpow (fdiv m.sum_cos_rad (some (m.count : ℝ))) 2)))))
        (fadd (some 1) (fmul (some (2 / Real.sqrt 3 - 1))
          (fpow (fsqrt (fsub (some 1) (fadd
            (fpow (fdiv m.sum_sin_rad (some (m.count : ℝ))) 2)
            (fpow (fdiv m.sum_cos_rad (some (m.count : ℝ))) 2)))) 3))))) ∧
    (∀ s c : ℝ, m.sum_sin_rad = some s → m.sum_cos_rad = some c →
      1 - ((s / (m.count : ℝ)) ^ 2 + (c / (m.count : ℝ)) ^ 2) < 0 →
      m.standard_deviation = none) := by
  have hn : ((m.count : ℝ)) ≠ 0 := Nat.cast_ne_zero.mpr h
  constructor
  · rw [DirectionMeasurements.standard_deviation, if_neg h]
    rfl
  · intro s c hs hc hneg
    rw [DirectionMeasurements.standard_deviation, if_neg h,
      DirectionMeasurements.standard_deviation_body, hs, hc]
    simp [fdiv, fpow, fadd, fsub, fsqrt, fasin, fmul, to_degrees, hn, hneg]

/-- Closed instance of C5: a one-measurement state whose sine sum is `2`
makes the radicand `-3`, and the standard deviation is the propagated
NaN sentinel. -/
theorem C5_standard_deviation_yamartino_witness :
    (DirectionMeasurements.mk 1 (some 2) (some 0)).standard_deviation = none :=
  (C5_standard_deviation_yamartino ⟨1, some 2, some 0⟩ (by decide)).2 2 0 rfl rfl
    (by push_cast; norm_num)

/-- A query call against the accumulator: the two read-only operations. -/
inductive QueryCall where
  | avgDir : QueryCall
  | stdDev : QueryCall

/-- Executing one query call: the state it leaves behind and the value it
returns.  Both queries take `&self` (a shared borrow of plain `u64`/`f64`
fields, no interior mutability) in the source, so the post-state is the
input state. -/
noncomputable def runQuery
    (m : DirectionMeasurements) : QueryCall → DirectionMeasurements × F64
  | QueryCall.avgDir => (m, m.average_direction)
  | QueryCall.stdDev => (m, m.standard_deviation)

/-- Executing a sequence of query calls with no intervening
`add_measurement`, threading the state and collecting the returned
values in order. -/
noncomputable def runQueries
    (m : DirectionMeasurements) : List QueryCall → DirectionMeasurements × List F64
  | [] => (m, [])
  | q :: qs =>
      ((runQueries (runQuery m q).1 qs).1,
        (runQuery m q).2 :: (runQueries (runQuery m q).1 qs).2)

theorem runQueries_eq (qs : List QueryCall) (m : DirectionMeasurements) :
    runQueries m qs = (m, qs.map (fun q => (runQuery m q).2)) := by
  induction qs generalizing m with
  | nil => rfl
  | cons q qs ih =>
      have hq : (runQuery m q).1 = m := by cases q <;> rfl
      rw [runQueries, hq, ih]
      rfl

/-- C8: any sequence of `average_direction` / `standard_deviation` calls
leaves `count`, `sum_sin_rad` and `sum_cos_rad` unchanged, and each call
returns the value determined by the initial state alone, so repeated
calls without an intervening `add_measurement` return identical results
each time. -/
theorem C8_queries_pure (m : DirectionMeasurements) (qs : List QueryCall) :
    (runQueries m qs).1.count = m.count ∧
    (runQueries m qs).1.sum_sin_rad = m.sum_sin_rad ∧
    (runQueries m qs).1.sum_cos_rad = m.sum_cos_rad ∧
    (runQueries m qs).2 = qs.map (fun q => (runQuery m q).2) := by
  rw [runQueries_eq]
  exact ⟨rfl, rfl, rfl, rfl⟩

/-- C9: for any finite (non-NaN) inputs, starting from any reachable
state (its sums finite), ingesting the whole sequence completes: every
increment of `count` succeeds, leaving `count` grown by exactly the
sequence length, and the sums remain defined finite values; the queries
are total functions of the resulting state.  Panics are modelled as
absent: no operation of the embedding has a failure outcome. -/
theorem C9_no_panic_total (vs : List ℝ) (m : DirectionMeasurements)
    (s c : ℝ) (hs : m.sum_sin_rad = some s) (hc : m.sum_cos_rad = some c) :
    (fromValuesLoop m (vs.map some)).count = m.count + vs.length ∧
    ∃ sf cf : ℝ, (fromValuesLoop m (vs.map some)).sum_sin_rad = some sf ∧
      (fromValuesLoop m (vs.map some)).sum_cos_rad = some cf := by
  induction vs generalizing m s c with
  | nil => exact ⟨rfl, s, c, hs, hc⟩
  | cons v rest ih =>
      have h1 : (m.add_measurement (some v)).sum_sin_rad
          = some (s + Real.sin (toRadiansR v)) := by
        simp [DirectionMeasurements.add_measurement, hs, to_radians, fsin, fadd]
      have h2 : (m.add_measurement (some v)).sum_cos_rad
          = some (c + Real.cos (toRadiansR v)) := by
        simp [DirectionMeasurements.add_measurement, hc, to_radians, fcos, fadd]
      have hrest := ih (m.add_measurement (some v)) _ _ h1 h2
      refine ⟨?_, ?_⟩
      · rw [List.map_cons]
        show (fromValuesLoop (m.add_measurement (some v)) (rest.map some)).count = _
        rw [hrest.1]
        simp [DirectionMeasurements.add_measurement]
        omega
      · rw [List.map_cons]
        exact hrest.2

/-- Closed instance of C9: ingesting the finite value `10` into `new`
gives `count = 1` and finite sums. -/
theorem C9_no_panic_total_witness :
    (fromValuesLoop DirectionMeasurements.new ([(10 : ℝ)].map some)).count
        = DirectionMeasurements.new.count + [(10 : ℝ)].length ∧
    ∃ sf cf : ℝ,
      (fromValuesLoop DirectionMeasurements.new ([(10 : ℝ)].map some)).sum_sin_rad
          = some sf ∧
      (fromValuesLoop DirectionMeasurements.new ([(10 : ℝ)].map some)).sum_cos_rad
          = some cf :=
  C9_no_panic_total [10] DirectionMeasurements.new 0 0 rfl rfl
